import Mathlib

/- Shallow embedding of the fast-server TCP framework core
   (src/fserv/*.hpp): the connection pool, listener pool, lock-free
   free stack, timeout reaper, readiness waiter shutdown protocol and
   the client write loop. OS effects (close, epoll_ctl, recv, send,
   accept) are modelled by explicit logs and result scripts; pointers
   to slab cells are modelled by their slab indices. -/

namespace FastServer

/-- Linux epoll flag EPOLLIN (sys/epoll.h). -/
def EPOLLIN : Nat := 1

/-- Linux epoll flag EPOLLPRI. -/
def EPOLLPRI : Nat := 2

/-- Linux epoll flag EPOLLERR. -/
def EPOLLERR : Nat := 8

/-- Linux epoll flag EPOLLHUP. -/
def EPOLLHUP : Nat := 16

/-- Linux epoll flag EPOLLRDHUP. -/
def EPOLLRDHUP : Nat := 8192

/-- Linux epoll flag EPOLLEXCLUSIVE. -/
def EPOLLEXCLUSIVE : Nat := 268435456

/-- Linux epoll flag EPOLLONESHOT. -/
def EPOLLONESHOT : Nat := 1073741824

/-- Linux epoll flag EPOLLET. -/
def EPOLLET : Nat := 2147483648

/-- Callback events fired on the downstream packet sink
    (the have_client_* trampolines of ClientPool, client_pool.hpp).
    The uuid argument is the slot identifier carried by the session
    view. -/
inductive Ev where
  | accepted (uuid : Nat)
  | dataReceived (uuid : Nat) (data : List Int) (len : Int)
  | oobReceived (uuid : Nat) (b : Int)
  | closed (uuid : Nat)
  | error (uuid : Nat)
deriving DecidableEq

/-- Sequential state of a ClientPool (client_pool.hpp). Slots are
    named by their slab index (which equals the uuid assigned by
    AtomicStack.init). sfds maps slot index to its bound descriptor,
    0 meaning free, mirroring StackNode.sfd. waiter is the set of
    descriptors registered with the epoll instance. stack is the free
    stack viewed sequentially, top first. tmap is the timeout map
    keys_ of TimeoutTimer: slot index paired with last-activity
    timestamp in milliseconds. closeLog records every descriptor
    passed to util.endpoint_close, in call order. -/
structure PoolSt where
  sfds : List Int
  waiter : List Int
  stack : List Nat
  tmap : List (Nat × Int)
  closeLog : List Int

/-- TimeoutTimer.set (timeout_timer.hpp line 49): keys_[key] = now.
    Updates the entry if the key is present, otherwise inserts it
    (at the end; a hash map fixes no iteration order). -/
def tmSet (c : Nat) (now : Int) : List (Nat × Int) → List (Nat × Int)
  | [] => [(c, now)]
  | (k, t) :: rest => if k = c then (k, now) :: rest else (k, t) :: tmSet c now rest

/-- ClientPool.terminate (client_pool.hpp lines 394-413): if the
    slot descriptor is 0 return; otherwise close the descriptor,
    remove it from the waiter, zero the slot descriptor and push the
    slot onto the free stack. No callback, and nothing touches tmap. -/
def terminate (c : Nat) (s : PoolSt) : PoolSt :=
  let sfd := s.sfds.getD c 0
  if sfd = 0 then s
  else
    { s with
      closeLog := s.closeLog ++ [sfd]
      waiter := s.waiter.erase sfd
      sfds := s.sfds.set c 0
      stack := c :: s.stack }

/-- ClientPool.terminate_on_close (client_pool.hpp lines 417-438):
    like terminate but fires the client_closed callback between
    zeroing the descriptor and the push. -/
def terminate_on_close (c : Nat) (s : PoolSt) : PoolSt × List Ev :=
  let sfd := s.sfds.getD c 0
  if sfd = 0 then (s, [])
  else
    ({ s with
       closeLog := s.closeLog ++ [sfd]
       waiter := s.waiter.erase sfd
       sfds := s.sfds.set c 0
       stack := c :: s.stack },
     [Ev.closed c])

/-- ClientPool.terminate_on_error (client_pool.hpp lines 442-463):
    like terminate but fires the client_error callback between
    zeroing the descriptor and the push. -/
def terminate_on_error (c : Nat) (s : PoolSt) : PoolSt × List Ev :=
  let sfd := s.sfds.getD c 0
  if sfd = 0 then (s, [])
  else
    ({ s with
       closeLog := s.closeLog ++ [sfd]
       waiter := s.waiter.erase sfd
       sfds := s.sfds.set c 0
       stack := c :: s.stack },
     [Ev.error c])

/-- ClientPool.add_client (client_pool.hpp lines 89-109): pop a free
    slot; if the stack is empty return null (NOTE: the source closes
    nothing on this path). Otherwise construct the client in the
    slot, store sfd in the node, fire client_accepted, register the
    descriptor with the waiter (success abstracted by addOk) and arm
    the reaper; on registration failure terminate the slot and
    return null. -/
def add_client (sfd : Int) (addOk : Bool) (now : Int) (s : PoolSt) :
    PoolSt × Option Nat × List Ev :=
  match s.stack with
  | [] => (s, none, [])
  | c :: rest =>
    let s1 : PoolSt := { s with stack := rest, sfds := s.sfds.set c sfd }
    if addOk then
      ({ s1 with waiter := s1.waiter ++ [sfd], tmap := tmSet c now s1.tmap },
       some c, [Ev.accepted c])
    else
      (terminate c s1, none, [Ev.accepted c])

/-- Result of one recv on a connection descriptor, as consumed by
    ClientPool.read_ready_triggered: minus one with errno EAGAIN,
    minus one with another errno, or nbytes = buf.length bytes read
    into the connection buffer (length 0 is orderly close). -/
inductive ReadRes where
  | eagain
  | err
  | bytes (buf : List Int)

/-- Result of one iteration of the OOB loop of
    ClientPool.pri_read_ready_triggered (via BasicClient.read_oob):
    minus one with EAGAIN, minus one otherwise, mark 0 (nothing to
    do), or one out-of-band byte. -/
inductive OobRes where
  | eagain
  | err
  | atMarkZero
  | byte (b : Int)

/-- ClientPool.read_ready_triggered (client_pool.hpp lines 495-524):
    loop reading into the connection buffer; minus one with EAGAIN
    breaks; other minus one terminates on error; 0 terminates on
    close; k > 0 bytes are forwarded to client_data_received before
    the next read. The script lists successive recv results. -/
def read_ready_triggered (c : Nat) (s : PoolSt) :
    List ReadRes → PoolSt × List Ev
  | [] => (s, [])
  | ReadRes.eagain :: _ => (s, [])
  | ReadRes.err :: _ => terminate_on_error c s
  | ReadRes.bytes buf :: rest =>
    if buf.length = 0 then terminate_on_close c s
    else
      let r := read_ready_triggered c s rest
      (r.1, Ev.dataReceived c buf (buf.length : Int) :: r.2)

/-- ClientPool.pri_read_ready_triggered (client_pool.hpp lines
    529-555): loop reading one OOB byte; minus one with EAGAIN
    breaks; other minus one terminates on error; mark 0 breaks; a
    byte is forwarded to client_oob_received before the next read. -/
def pri_read_ready_triggered (c : Nat) (s : PoolSt) :
    List OobRes → PoolSt × List Ev
  | [] => (s, [])
  | OobRes.eagain :: _ => (s, [])
  | OobRes.err :: _ => terminate_on_error c s
  | OobRes.atMarkZero :: _ => (s, [])
  | OobRes.byte b :: rest =>
    let r := pri_read_ready_triggered c s rest
    (r.1, Ev.oobReceived c b :: r.2)

/-- ClientPool.trigger (client_pool.hpp lines 468-491): if EPOLLERR
    is set, terminate on error. Else if EPOLLHUP or EPOLLRDHUP is
    set, fire client_closed and then terminate_on_close (which fires
    client_closed again). Otherwise the EPOLLPRI branch and then the
    EPOLLIN branch each run when their flag is set, refreshing the
    reaper timestamp before their read loop. -/
def trigger (c : Nat) (flags : Nat) (now : Int) (readScript : List ReadRes)
    (oobScript : List OobRes) (s : PoolSt) : PoolSt × List Ev :=
  if flags &&& EPOLLERR ≠ 0 then terminate_on_error c s
  else if flags &&& EPOLLHUP ≠ 0 ∨ flags &&& EPOLLRDHUP ≠ 0 then
    let r := terminate_on_close c s
    (r.1, Ev.closed c :: r.2)
  else
    let r1 :=
      if flags &&& EPOLLPRI ≠ 0 then
        pri_read_ready_triggered c { s with tmap := tmSet c now s.tmap } oobScript
      else (s, [])
    let r2 :=
      if flags &&& EPOLLIN ≠ 0 then
        read_ready_triggered c { r1.1 with tmap := tmSet c now r1.1.tmap } readScript
      else (r1.1, [])
    (r2.1, r1.2 ++ r2.2)

/-- The accept loop of ServerPool.trigger (server_pool.hpp lines
    175-183): accept until it returns minus one (script end); a
    descriptor whose unblock call fails is closed and skipped; every
    other descriptor is handed to add_client, whose null result is
    ignored (nothing closes the descriptor on admission rejection). -/
def acceptLoop (now : Int) : List (Int × Bool × Bool) → PoolSt → PoolSt × List Ev
  | [], s => (s, [])
  | (cfd, unblockOk, addOk) :: rest, s =>
    if unblockOk then
      let r := add_client cfd addOk now s
      let r2 := acceptLoop now rest r.1
      (r2.1, r.2.2 ++ r2.2)
    else acceptLoop now rest { s with closeLog := s.closeLog ++ [cfd] }

/-- ServerPool.trigger (server_pool.hpp lines 162-186): a switch on
    the exact flag value: the cases EPOLLHUP and EPOLLERR close the
    listening socket; every other value falls into the default
    branch, the accept loop. -/
def server_trigger (srvFd : Int) (flags : Nat) (accepts : List (Int × Bool × Bool))
    (now : Int) (s : PoolSt) : PoolSt × List Ev :=
  if flags = EPOLLHUP ∨ flags = EPOLLERR then
    ({ s with closeLog := s.closeLog ++ [srvFd] }, [])
  else acceptLoop now accepts s

/-- One slab cell as laid out by AtomicStack.init (atomic_stack.hpp):
    the uuid field (default member initializer 0, set to the index by
    the init loop) and the ptr_to_next link, modelled as the index of
    the next cell (none for the bottom sentinel). -/
structure Cell where
  uuid : Int
  next : Option Nat

/-- Sequential state of an AtomicStack over its slab: the cells by
    index and the head_ pointer as an index (none when empty). -/
structure StackSt where
  cells : List Cell
  head : Option Nat

/-- One iteration of the init loop of AtomicStack.init
    (atomic_stack.hpp lines 52-62): construct cell i linking to cell
    i-1, set its uuid to i and store it as the new head. -/
def initStep (st : StackSt) (i : Nat) : StackSt :=
  { cells := st.cells ++ [{ uuid := (i : Int), next := some (i - 1) }],
    head := some i }

/-- AtomicStack.init (atomic_stack.hpp lines 38-63): construct cell 0
    with a null link (its uuid stays at the default 0), store it as
    head, then run the init loop for i = 1 .. capacity-1. Modelled
    for an allocated slab of capacity n, n at least 1. -/
def initStack (n : Nat) : StackSt :=
  (List.range' 1 (n - 1)).foldl initStep
    { cells := [{ uuid := 0, next := none }], head := some 0 }

/-- AtomicStack.pop (atomic_stack.hpp lines 83-97), sequential view:
    return null if head_ is null, otherwise return the head cell and
    install its ptr_to_next as the new head. -/
def pop (s : StackSt) : Option Nat × StackSt :=
  match s.head with
  | none => (none, s)
  | some h => (some h, { s with head := (s.cells.getD h { uuid := 0, next := none }).next })

/-- AtomicStack.push (atomic_stack.hpp lines 67-79), sequential view:
    link the node to the current head and install it as the new head.
    The pushed index must name a cell of the slab. -/
def push (v : Nat) (s : StackSt) : StackSt :=
  { cells := s.cells.set v { (s.cells.getD v { uuid := 0, next := none }) with next := s.head },
    head := some v }

/-- Successive pops: a list of k pop calls, collecting the returned
    indices in order (stopping if a pop returns null). -/
def popList : Nat → StackSt → List Nat × StackSt
  | 0, s => ([], s)
  | k + 1, s =>
    match pop s with
    | (none, s1) => ([], s1)
    | (some v, s1) =>
      let r := popList k s1
      (v :: r.1, r.2)

/-- Shared state of an EpollWaiter during shutdown (epoll.hpp):
    counter is the atomic instance_count_, pending the number of
    bytes written to the self-pipe and not yet consumed, exited the
    number of workers that have left their wait loop, closes the
    total number of close() invocations. -/
structure DaisySt where
  counter : Int
  pending : Nat
  exited : Nat
  closes : Nat

/-- EpollWaiter.close (epoll.hpp lines 125-139): rearm the self-pipe
    read side one-shot and write a single byte to the pipe. -/
def epollClose (s : DaisySt) : DaisySt :=
  { s with pending := s.pending + 1, closes := s.closes + 1 }

/-- The self-pipe branch of EpollWaiter.wait (epoll.hpp lines
    186-201): one waiting worker consumes the byte, decrements
    instance_count_, re-invokes close() when the post-decrement value
    is greater than zero, and exits its wait loop. -/
def workerReceive (s : DaisySt) : DaisySt :=
  let s1 : DaisySt := { s with pending := s.pending - 1 }
  let newCount := s1.counter - 1
  let s2 : DaisySt := { s1 with counter := newCount }
  let s3 := if newCount > 0 then epollClose s2 else s2
  { s3 with exited := s3.exited + 1 }

/-- Waiter state with K workers inside wait (each incremented
    instance_count_ on entry) and no shutdown signal yet. -/
def waitersInit (K : Nat) : DaisySt :=
  { counter := (K : Int), pending := 0, exited := 0, closes := 0 }

/-- The complete shutdown protocol: one initial close() (from stop),
    then each of the K waiting workers in turn consumes a self-pipe
    byte via workerReceive. -/
def daisyRun (K : Nat) : DaisySt :=
  workerReceive^[K] (epollClose (waitersInit K))

/-- The loop of BasicClient.write (basic_client.hpp lines 72-87),
    returning the final value of size: while size > 0, take the next
    send result n from the script; n less or equal 0 breaks;
    otherwise size decreases by n. An empty script behaves like a
    break (a real send always yields a result). -/
def writeLoop (sends : List Int) (size : Int) : Int :=
  match sends with
  | [] => size
  | n :: rest =>
    if size > 0 then (if n ≤ 0 then size else writeLoop rest (size - n))
    else size

/-- BasicClient.write (basic_client.hpp lines 72-87): runs the send
    loop and returns total_size - size, the number of bytes actually
    delivered. -/
def clientWrite (sends : List Int) (size : Int) : Int :=
  size - writeLoop sends size

/-- ClientSession.write (client_session.hpp lines 39-42): forwards
    directly to the client write. -/
def sessionWrite (sends : List Int) (size : Int) : Int :=
  clientWrite sends size

/-- POSIX guarantee on the send results consumed by the write loop:
    each send returns at most the number of bytes it was asked to
    send at that point of the loop. -/
def validSends : List Int → Int → Bool
  | [], _ => true
  | n :: rest, size => decide (n ≤ size) && validSends rest (size - n)

/-- A capacity-1 pool whose single slot 0 is bound to descriptor 7
    and armed at time 0: the free stack is empty, so capacity is
    exhausted. -/
def poolLive : PoolSt :=
  { sfds := [7], waiter := [7], stack := [], tmap := [(0, 0)], closeLog := [] }

/-- A capacity-1 pool whose single slot 0 is free. -/
def poolFree : PoolSt :=
  { sfds := [0], waiter := [], stack := [0], tmap := [], closeLog := [] }

/-- The cells produced by AtomicStack.init on a slab of n cells, in
    closed form: cell i carries uuid i and links to cell i-1, cell 0
    being the bottom sentinel with a null link. -/
def chainCells (n : Nat) : List Cell :=
  (List.range n).map
    (fun (i : Nat) =>
      { uuid := (i : Int), next := if i = 0 then none else some (i - 1) })

/- ------------------------------------------------------------------
   Helper lemmas
   ------------------------------------------------------------------ -/

/-- terminate is a no-op on a slot whose descriptor is zero. -/
lemma terminate_of_sfd_zero {c : Nat} {s : PoolSt} (h : s.sfds.getD c 0 = 0) :
    terminate c s = s := by
  simp only [terminate]
  rw [if_pos h]

/-- terminate on a bound slot: close, deregister, zero, push. -/
lemma terminate_of_sfd_ne {c : Nat} {s : PoolSt} (h : s.sfds.getD c 0 ≠ 0) :
    terminate c s =
      { s with
        closeLog := s.closeLog ++ [s.sfds.getD c 0]
        waiter := s.waiter.erase (s.sfds.getD c 0)
        sfds := s.sfds.set c 0
        stack := c :: s.stack } := by
  simp only [terminate]
  rw [if_neg h]

/-- terminate_on_close is a no-op on a slot whose descriptor is zero. -/
lemma terminate_on_close_of_sfd_zero {c : Nat} {s : PoolSt}
    (h : s.sfds.getD c 0 = 0) : terminate_on_close c s = (s, []) := by
  simp only [terminate_on_close]
  rw [if_pos h]

/-- terminate_on_close on a bound slot: close, deregister, zero, fire
    the closed callback, push. -/
lemma terminate_on_close_of_sfd_ne {c : Nat} {s : PoolSt}
    (h : s.sfds.getD c 0 ≠ 0) :
    terminate_on_close c s =
      ({ s with
         closeLog := s.closeLog ++ [s.sfds.getD c 0]
         waiter := s.waiter.erase (s.sfds.getD c 0)
         sfds := s.sfds.set c 0
         stack := c :: s.stack },
       [Ev.closed c]) := by
  simp only [terminate_on_close]
  rw [if_neg h]

/-- terminate_on_error is a no-op on a slot whose descriptor is zero. -/
lemma terminate_on_error_of_sfd_zero {c : Nat} {s : PoolSt}
    (h : s.sfds.getD c 0 = 0) : terminate_on_error c s = (s, []) := by
  simp only [terminate_on_error]
  rw [if_pos h]

/-- terminate_on_error on a bound slot: close, deregister, zero, fire
    the error callback, push. -/
lemma terminate_on_error_of_sfd_ne {c : Nat} {s : PoolSt}
    (h : s.sfds.getD c 0 ≠ 0) :
    terminate_on_error c s =
      ({ s with
         closeLog := s.closeLog ++ [s.sfds.getD c 0]
         waiter := s.waiter.erase (s.sfds.getD c 0)
         sfds := s.sfds.set c 0
         stack := c :: s.stack },
       [Ev.error c]) := by
  simp only [terminate_on_error]
  rw [if_neg h]

/-- C1 counterexample: with capacity exhausted (empty free stack),
    add_client 5 returns null but closes nothing: the close log stays
    empty, and even after the accept loop hands the descriptor to the
    full pool, descriptor 5 was never closed. This refutes the claim
    that the pool closes sfd when the free stack is empty. -/
theorem add_client_counterexample :
    (add_client 5 true 0 poolLive).2.1 = none ∧
    (add_client 5 true 0 poolLive).1.closeLog = [] ∧
    (5 : Int) ∉ (acceptLoop 0 [(5, true, true)] poolLive).1.closeLog := by
  decide

/-- C1 amended: when the free stack is empty, add_client returns null
    leaving the pool state completely unchanged, in particular
    without closing sfd; the accept loop ignores the null result, so
    the accepted descriptor is left open (leaked), not closed. -/
theorem add_client_exhausted_no_close (sfd : Int) (addOk : Bool) (now : Int)
    (s : PoolSt) (h : s.stack = []) :
    add_client sfd addOk now s = (s, none, []) ∧
    acceptLoop now [(sfd, true, addOk)] s = (s, []) := by
  constructor
  · simp [add_client, h]
  · simp [acceptLoop, add_client, h]

/-- Witness for C1 amended at a concrete exhausted pool. -/
theorem add_client_exhausted_no_close_witness :
    poolLive.stack = [] ∧
    (add_client 5 true 0 poolLive = (poolLive, none, []) ∧
     acceptLoop 0 [(5, true, true)] poolLive = (poolLive, [])) :=
  ⟨by decide, add_client_exhausted_no_close 5 true 0 poolLive (by decide)⟩

/-- C3 counterexample: a single delivered event with only the
    peer-half-close flag (EPOLLRDHUP, error clear) on a live
    connection fires the closed callback twice, not once: once
    directly in trigger and once inside terminate_on_close. -/
theorem trigger_hangup_counterexample :
    (trigger 0 EPOLLRDHUP 0 [] [] poolLive).2 = [Ev.closed 0, Ev.closed 0] ∧
    (trigger 0 EPOLLRDHUP 0 [] [] poolLive).2.count (Ev.closed 0) = 2 := by
  decide

/-- C3 amended: on a hangup or peer-half-close event with the error
    flag clear, dispatch on a live connection fires the closed
    callback exactly twice (once directly, once inside
    terminate_on_close) and then reclaims the slot: the descriptor is
    closed, deregistered and zeroed and the slot is pushed onto the
    free stack. -/
theorem trigger_hangup_fires_closed_twice (c : Nat) (flags : Nat) (now : Int)
    (rs : List ReadRes) (os : List OobRes) (s : PoolSt)
    (herr : flags &&& EPOLLERR = 0)
    (hhup : flags &&& EPOLLHUP ≠ 0 ∨ flags &&& EPOLLRDHUP ≠ 0)
    (hlive : s.sfds.getD c 0 ≠ 0) :
    trigger c flags now rs os s =
      ({ s with
         closeLog := s.closeLog ++ [s.sfds.getD c 0]
         waiter := s.waiter.erase (s.sfds.getD c 0)
         sfds := s.sfds.set c 0
         stack := c :: s.stack },
       [Ev.closed c, Ev.closed c]) := by
  simp only [trigger]
  rw [if_neg (by simp [herr]), if_pos hhup, terminate_on_close_of_sfd_ne hlive]

/-- Witness for C3 amended: concrete double closed callback. -/
theorem trigger_hangup_fires_closed_twice_witness :
    trigger 0 EPOLLRDHUP 0 [] [] poolLive =
      ({ poolLive with
         closeLog := poolLive.closeLog ++ [poolLive.sfds.getD 0 0]
         waiter := poolLive.waiter.erase (poolLive.sfds.getD 0 0)
         sfds := poolLive.sfds.set 0 0
         stack := 0 :: poolLive.stack },
       [Ev.closed 0, Ev.closed 0]) :=
  trigger_hangup_fires_closed_twice 0 EPOLLRDHUP 0 [] [] poolLive
    (by decide) (by decide) (by decide)

/-- C4 counterexample: a listener event whose flags combine the error
    bit with readable (EPOLLERR plus EPOLLIN) falls into the default
    branch of the switch: the listening socket 3 is not closed and
    the accept loop runs, accepting descriptor 7 into the pool. This
    refutes the claim for combined error or hangup flag sets. -/
theorem server_trigger_counterexample :
    (server_trigger 3 (EPOLLERR ||| EPOLLIN) [(7, true, true)] 0 poolFree).1.closeLog
        = [] ∧
    (3 : Int) ∉
      (server_trigger 3 (EPOLLERR ||| EPOLLIN) [(7, true, true)] 0 poolFree).1.closeLog ∧
    (server_trigger 3 (EPOLLERR ||| EPOLLIN) [(7, true, true)] 0 poolFree).2
        = [Ev.accepted 0] ∧
    (server_trigger 3 (EPOLLERR ||| EPOLLIN) [(7, true, true)] 0 poolFree).1.sfds
        = [7] := by
  decide

/-- C4 amended: the listener trigger switches on the exact flag
    value: only an event whose flag set equals exactly EPOLLHUP or
    exactly EPOLLERR closes the listening socket; every other flag
    set, including error or hangup bits combined with other bits,
    enters the accept loop. -/
theorem server_trigger_exact_switch (srvFd : Int) (flags : Nat)
    (accepts : List (Int × Bool × Bool)) (now : Int) (s : PoolSt) :
    (flags = EPOLLHUP ∨ flags = EPOLLERR →
      server_trigger srvFd flags accepts now s
        = ({ s with closeLog := s.closeLog ++ [srvFd] }, [])) ∧
    (¬(flags = EPOLLHUP ∨ flags = EPOLLERR) →
      server_trigger srvFd flags accepts now s = acceptLoop now accepts s) := by
  constructor <;> intro h <;> simp [server_trigger, h]

/-- Witness for C4 amended at both a closing and an accepting flag
    value. -/
theorem server_trigger_exact_switch_witness :
    server_trigger 3 EPOLLHUP [(7, true, true)] 0 poolFree
      = ({ poolFree with closeLog := poolFree.closeLog ++ [3] }, []) ∧
    server_trigger 3 (EPOLLERR ||| EPOLLIN) [(7, true, true)] 0 poolFree
      = acceptLoop 0 [(7, true, true)] poolFree :=
  ⟨(server_trigger_exact_switch 3 EPOLLHUP [(7, true, true)] 0 poolFree).1
      (Or.inl rfl),
   (server_trigger_exact_switch 3 (EPOLLERR ||| EPOLLIN) [(7, true, true)] 0
      poolFree).2 (by decide)⟩

/-- C5: terminate is idempotent: a slot whose descriptor is zero is
    returned unchanged; otherwise the descriptor is closed, removed
    from the waiter, zeroed in the slot and the slot is pushed onto
    the free stack; a second terminate on the same slot is a no-op. -/
theorem terminate_idempotent (c : Nat) (s : PoolSt) :
    (s.sfds.getD c 0 = 0 → terminate c s = s) ∧
    (s.sfds.getD c 0 ≠ 0 →
      terminate c s =
        { s with
          closeLog := s.closeLog ++ [s.sfds.getD c 0]
          waiter := s.waiter.erase (s.sfds.getD c 0)
          sfds := s.sfds.set c 0
          stack := c :: s.stack }) ∧
    terminate c (terminate c s) = terminate c s := by
  refine ⟨fun h => terminate_of_sfd_zero h, fun h => terminate_of_sfd_ne h, ?_⟩
  by_cases h : s.sfds.getD c 0 = 0
  · rw [terminate_of_sfd_zero h]
    exact terminate_of_sfd_zero h
  · have hc : c < s.sfds.length := by
      by_contra hge
      exact h (List.getD_eq_default _ _ (Nat.le_of_not_lt hge))
    have h2 : (terminate c s).sfds.getD c 0 = 0 := by
      rw [terminate_of_sfd_ne h]
      simp [List.getD_eq_getElem?_getD, List.getElem?_set_self hc]
    exact terminate_of_sfd_zero h2

/-- Witness for C5 at a concrete live slot. -/
theorem terminate_idempotent_witness :
    poolLive.sfds.getD 0 0 ≠ 0 ∧
    terminate 0 (terminate 0 poolLive) = terminate 0 poolLive :=
  ⟨by decide, (terminate_idempotent 0 poolLive).2.2⟩

/-- A worker consuming the last pipe byte when one waiter remains:
    decrement reaches zero, so no further close() is issued. -/
lemma daisy_last (e cl : Nat) :
    workerReceive { counter := 1, pending := 1, exited := e, closes := cl }
      = { counter := 0, pending := 0, exited := e + 1, closes := cl } := by
  simp [workerReceive, epollClose]

/-- A worker consuming a pipe byte while at least one further waiter
    remains: decrement stays positive, so close() is re-invoked. -/
lemma daisy_step (j e cl : Nat) :
    workerReceive
        { counter := ((j : Int) + 2), pending := 1, exited := e, closes := cl }
      = { counter := ((j : Int) + 1), pending := 1, exited := e + 1,
          closes := cl + 1 } := by
  simp only [workerReceive, epollClose]
  rw [if_pos (by omega)]
  simp only [DaisySt.mk.injEq, true_and, and_true]
  omega

/-- The daisy chain from one pending byte and j+1 waiting workers:
    all j+1 workers exit and j additional close() calls are made. -/
lemma daisy_aux (j : Nat) : ∀ (e cl : Nat),
    workerReceive^[j + 1]
        { counter := ((j : Int) + 1), pending := 1, exited := e, closes := cl }
      = { counter := 0, pending := 0, exited := e + (j + 1), closes := cl + j } := by
  induction j with
  | zero =>
    intro e cl
    simpa using daisy_last e cl
  | succ k ih =>
    intro e cl
    rw [Function.iterate_succ_apply]
    have hstep :
        workerReceive
            { counter := ((k + 1 : Nat) : Int) + 1, pending := 1, exited := e, closes := cl }
          = { counter := ((k : Int) + 1), pending := 1, exited := e + 1,
              closes := cl + 1 } := by
      have h := daisy_step k e cl
      have harg : ((k + 1 : Nat) : Int) + 1 = (k : Int) + 2 := by push_cast; ring
      rw [harg]
      exact h
    rw [hstep, ih (e + 1) (cl + 1)]
    simp only [DaisySt.mk.injEq, true_and, and_true]
    omega

/-- C6: if close() is invoked while K workers are inside wait, then
    delivering the K self-pipe bytes in turn makes each worker
    decrement the counter, re-invoke close() exactly when the
    post-decrement value is positive, and exit; all K workers exit
    and the total number of close() invocations is exactly K. -/
theorem daisy_chain_shutdown (K : Nat) (hK : 1 ≤ K) :
    (daisyRun K).exited = K ∧ (daisyRun K).closes = K ∧
    (daisyRun K).pending = 0 ∧ (daisyRun K).counter = 0 ∧
    ∀ s : DaisySt,
      (workerReceive s).counter = s.counter - 1 ∧
      (workerReceive s).exited = s.exited + 1 ∧
      (workerReceive s).closes
        = s.closes + (if s.counter - 1 > 0 then 1 else 0) := by
  obtain ⟨j, rfl⟩ : ∃ j, K = j + 1 := ⟨K - 1, by omega⟩
  have hinit :
      epollClose (waitersInit (j + 1))
        = { counter := ((j : Int) + 1), pending := 1, exited := 0, closes := 1 } := by
    simp only [epollClose, waitersInit, DaisySt.mk.injEq, true_and, and_true]
    omega
  have hrun :
      daisyRun (j + 1)
        = { counter := 0, pending := 0, exited := j + 1, closes := j + 1 } := by
    unfold daisyRun
    rw [hinit, daisy_aux j 0 1]
    simp only [DaisySt.mk.injEq, true_and, and_true]
    omega
  refine ⟨by rw [hrun], by rw [hrun], by rw [hrun], by rw [hrun], ?_⟩
  intro s
  by_cases hc : s.counter - 1 > 0
  · simp [workerReceive, epollClose, hc]
  · simp [workerReceive, epollClose, hc]

/-- Witness for C6 at K = 3 workers. -/
theorem daisy_chain_shutdown_witness :
    (daisyRun 3).exited = 3 ∧ (daisyRun 3).closes = 3 ∧
    (daisyRun 3).pending = 0 ∧ (daisyRun 3).counter = 0 ∧
    ∀ s : DaisySt,
      (workerReceive s).counter = s.counter - 1 ∧
      (workerReceive s).exited = s.exited + 1 ∧
      (workerReceive s).closes
        = s.closes + (if s.counter - 1 > 0 then 1 else 0) :=
  daisy_chain_shutdown 3 (by decide)

/-- The send loop never increases size. -/
lemma writeLoop_le (sends : List Int) : ∀ (size : Int), writeLoop sends size ≤ size := by
  induction sends with
  | nil => intro size; simp [writeLoop]
  | cons n rest ih =>
    intro size
    by_cases h1 : size > 0
    · by_cases h2 : n ≤ 0
      · simp [writeLoop, h1, h2]
      · simp only [writeLoop, if_pos h1, if_neg h2]
        have := ih (size - n)
        omega
    · simp [writeLoop, h1]

/-- Under the POSIX guarantee that each send returns at most the
    requested count, the remaining size never becomes negative. -/
lemma writeLoop_nonneg (sends : List Int) : ∀ (size : Int), 0 ≤ size →
    validSends sends size = true → 0 ≤ writeLoop sends size := by
  induction sends with
  | nil => intro size h0 _; simpa [writeLoop] using h0
  | cons n rest ih =>
    intro size h0 hv
    simp only [validSends, Bool.and_eq_true, decide_eq_true_eq] at hv
    by_cases h1 : size > 0
    · by_cases h2 : n ≤ 0
      · simp [writeLoop, h1, h2]; omega
      · simp only [writeLoop, if_pos h1, if_neg h2]
        exact ih (size - n) (by omega) hv.2
    · simp [writeLoop, h1]; omega

/-- C10: the session write returns the number of bytes delivered, a
    value between 0 and size: it is never negative (a send result
    that is not positive just stops the loop, yielding the bytes sent
    so far), a positive partial send of n bytes is retried on the
    remaining size - n bytes, and under the POSIX bound on send
    results the total never exceeds size. -/
theorem clientWrite_bounds (sends : List Int) (size : Int) (h0 : 0 ≤ size) :
    0 ≤ clientWrite sends size ∧
    (validSends sends size = true → clientWrite sends size ≤ size) ∧
    sessionWrite sends size = clientWrite sends size ∧
    (∀ (n : Int) (rest : List Int), 0 < size → 0 < n →
      clientWrite (n :: rest) size = n + clientWrite rest (size - n)) ∧
    (∀ (n : Int) (rest : List Int), n ≤ 0 → clientWrite (n :: rest) size = 0) := by
  refine ⟨?_, ?_, rfl, ?_, ?_⟩
  · have := writeLoop_le sends size
    unfold clientWrite
    omega
  · intro hv
    have := writeLoop_nonneg sends size h0 hv
    unfold clientWrite
    omega
  · intro n rest h1 h2
    unfold clientWrite
    simp only [writeLoop, if_pos h1, if_neg (by omega : ¬n ≤ 0)]
    ring
  · intro n rest hn
    unfold clientWrite
    by_cases h1 : size > 0
    · simp [writeLoop, h1, hn]
    · simp [writeLoop, h1]

/-- Witness for C10 at sends [3, 2] and size 5. -/
theorem clientWrite_bounds_witness :
    (0 : Int) ≤ clientWrite [3, 2] 5 ∧
    (validSends [3, 2] 5 = true → clientWrite [3, 2] 5 ≤ 5) ∧
    sessionWrite [3, 2] 5 = clientWrite [3, 2] 5 ∧
    (∀ (n : Int) (rest : List Int), (0 : Int) < 5 → 0 < n →
      clientWrite (n :: rest) 5 = n + clientWrite rest (5 - n)) ∧
    (∀ (n : Int) (rest : List Int), n ≤ 0 → clientWrite (n :: rest) 5 = 0) :=
  clientWrite_bounds [3, 2] 5 (by decide)

/-- Unrolling the init loop once at the top of the range. -/
lemma initStack_succ (k : Nat) :
    initStack (k + 2) = initStep (initStack (k + 1)) (k + 1) := by
  show (List.range' 1 (k + 1)).foldl initStep _ = _
  rw [List.range'_concat 1 k, List.foldl_concat]
  congr 1
  omega

/-- Closed form of AtomicStack.init: after init on n+1 cells, cell i
    carries uuid i and links to cell i-1 (cell 0 to null), and the
    head is the highest index n. -/
lemma initStack_closed : ∀ (n : Nat),
    initStack (n + 1) = { cells := chainCells (n + 1), head := some n }
  | 0 => rfl
  | (k + 1) => by
    rw [show initStack (k + 1 + 1) = initStep (initStack (k + 1)) (k + 1) from
        initStack_succ k,
      initStack_closed k]
    simp only [initStep, StackSt.mk.injEq, and_true]
    conv_rhs => rw [chainCells, List.range_succ, List.map_append]
    rw [chainCells]
    simp

/-- The cell at index i of the initialized chain. -/
lemma chainCells_getD (n i : Nat) (hi : i < n) :
    (chainCells n).getD i { uuid := 0, next := none }
      = { uuid := (i : Int), next := if i = 0 then none else some (i - 1) } := by
  rw [chainCells, List.getD_eq_getElem?_getD, List.getElem?_map,
    List.getElem?_range hi]
  rfl

/-- Unrolling popList once when the pop succeeds. -/
lemma popList_succ {s s1 : StackSt} {v : Nat} (k : Nat)
    (h : pop s = (some v, s1)) :
    popList (k + 1) s = (v :: (popList k s1).1, (popList k s1).2) := by
  simp only [popList, h]

/-- Popping k+1 times from the initialized chain with head at index k
    yields k, k-1, ..., 0 and leaves the empty stack. -/
lemma popList_chain (n : Nat) : ∀ (k : Nat), k < n →
    popList (k + 1) { cells := chainCells n, head := some k }
      = ((List.range (k + 1)).reverse,
         { cells := chainCells n, head := none }) := by
  intro k
  induction k with
  | zero =>
    intro h0
    have hpop0 : pop { cells := chainCells n, head := some 0 }
        = (some 0, { cells := chainCells n, head := none }) := by
      simp only [pop]
      rw [chainCells_getD n 0 h0]
      simp
    rw [popList_succ 0 hpop0]
    simp [popList]
    decide
  | succ k ih =>
    intro hk
    have hpop1 : pop { cells := chainCells n, head := some (k + 1) }
        = (some (k + 1), { cells := chainCells n, head := some k }) := by
      simp only [pop]
      rw [chainCells_getD n (k + 1) hk]
      simp
    rw [popList_succ (k + 1) hpop1, ih (Nat.lt_of_succ_lt hk)]
    simp [List.range_succ]

/-- C7: for every capacity n at least 1, popping n times after init
    yields the cells in strictly descending index order n-1, ..., 0;
    a further pop on the now-empty stack returns null; every cell
    carries uuid equal to its index, and the bottom cell 0 (the last
    one popped) has a null link. -/
theorem stack_pop_descending (n : Nat) (hn : 1 ≤ n) :
    (popList n (initStack n)).1 = (List.range n).reverse ∧
    (pop (popList n (initStack n)).2).1 = none ∧
    (∀ i, i < n →
      ((initStack n).cells.getD i { uuid := 0, next := none }).uuid = (i : Int)) ∧
    ((initStack n).cells.getD 0 { uuid := 0, next := none }).next = none := by
  obtain ⟨j, rfl⟩ : ∃ j, n = j + 1 := ⟨n - 1, by omega⟩
  have hclosed := initStack_closed j
  have hpop := popList_chain (j + 1) j (Nat.lt_succ_self j)
  refine ⟨?_, ?_, ?_, ?_⟩
  · rw [hclosed, hpop]
  · rw [hclosed, hpop]
    rfl
  · intro i hi
    rw [hclosed]
    show ((chainCells (j + 1)).getD i { uuid := 0, next := none }).uuid = (i : Int)
    rw [chainCells_getD (j + 1) i hi]
  · rw [hclosed]
    show ((chainCells (j + 1)).getD 0 { uuid := 0, next := none }).next = none
    rw [chainCells_getD (j + 1) 0 (by omega)]
    rfl

/-- Witness for C7 at capacity 4. -/
theorem stack_pop_descending_witness :
    (popList 4 (initStack 4)).1 = (List.range 4).reverse ∧
    (pop (popList 4 (initStack 4)).2).1 = none ∧
    (∀ i, i < 4 →
      ((initStack 4).cells.getD i { uuid := 0, next := none }).uuid = (i : Int)) ∧
    ((initStack 4).cells.getD 0 { uuid := 0, next := none }).next = none :=
  stack_pop_descending 4 (by decide)

/-- Draining a prefix of successful reads forwards each buffer with
    its length to the data callback before the next read, leaving the
    state to whatever the rest of the script produces. -/
lemma read_ready_data_prefix (c : Nat) (s : PoolSt) (bufs : List (List Int))
    (rest0 : List ReadRes) (h : ∀ b ∈ bufs, b ≠ []) :
    read_ready_triggered c s (bufs.map ReadRes.bytes ++ rest0)
      = ((read_ready_triggered c s rest0).1,
         bufs.map (fun b => Ev.dataReceived c b (b.length : Int))
           ++ (read_ready_triggered c s rest0).2) := by
  induction bufs with
  | nil => simp
  | cons b bufs ih =>
    have hb : b ≠ [] := h b (List.mem_cons_self b bufs)
    have hlen : ¬b.length = 0 := by simpa using hb
    simp only [List.map_cons, List.cons_append, read_ready_triggered,
      List.append_eq]
    rw [if_neg hlen, ih (fun x hx => h x (List.mem_cons_of_mem b hx))]

/-- C9: on a dispatch whose flags have only the readable bit among
    the handled set, the pool refreshes the reaper timestamp and then
    drains reads: each read of k > 0 bytes forwards exactly (buffer, k)
    to data_received before the next read; a read of -1 with EAGAIN
    breaks the loop leaving the connection live and the state
    otherwise untouched; a read of 0 terminates on close (the user
    sees closed); a read of -1 otherwise terminates on error (the
    user sees error). -/
theorem read_dispatch_spec (c : Nat) (flags : Nat) (now : Int) (s : PoolSt)
    (bufs : List (List Int)) (rest : List ReadRes) (os : List OobRes)
    (hIN : flags &&& EPOLLIN ≠ 0) (hERR : flags &&& EPOLLERR = 0)
    (hHUP : flags &&& EPOLLHUP = 0) (hRD : flags &&& EPOLLRDHUP = 0)
    (hPRI : flags &&& EPOLLPRI = 0) (hbufs : ∀ b ∈ bufs, b ≠ []) :
    trigger c flags now (bufs.map ReadRes.bytes ++ ReadRes.eagain :: rest) os s
      = ({ s with tmap := tmSet c now s.tmap },
         bufs.map (fun b => Ev.dataReceived c b (b.length : Int))) ∧
    trigger c flags now (bufs.map ReadRes.bytes ++ ReadRes.bytes [] :: rest) os s
      = ((terminate_on_close c { s with tmap := tmSet c now s.tmap }).1,
         bufs.map (fun b => Ev.dataReceived c b (b.length : Int))
           ++ (terminate_on_close c { s with tmap := tmSet c now s.tmap }).2) ∧
    trigger c flags now (bufs.map ReadRes.bytes ++ ReadRes.err :: rest) os s
      = ((terminate_on_error c { s with tmap := tmSet c now s.tmap }).1,
         bufs.map (fun b => Ev.dataReceived c b (b.length : Int))
           ++ (terminate_on_error c { s with tmap := tmSet c now s.tmap }).2) := by
  have htrig : ∀ script : List ReadRes,
      trigger c flags now script os s
        = read_ready_triggered c { s with tmap := tmSet c now s.tmap } script := by
    intro script
    simp [trigger, hERR, hHUP, hRD, hPRI, hIN]
  refine ⟨?_, ?_, ?_⟩
  · rw [htrig, read_ready_data_prefix c _ bufs (ReadRes.eagain :: rest) hbufs]
    simp [read_ready_triggered]
  · rw [htrig, read_ready_data_prefix c _ bufs (ReadRes.bytes [] :: rest) hbufs]
    simp [read_ready_triggered]
  · rw [htrig, read_ready_data_prefix c _ bufs (ReadRes.err :: rest) hbufs]
    simp [read_ready_triggered]

/-- Witness for C9: one 2-byte read then EAGAIN, close and error
    endings, on the live pool. -/
theorem read_dispatch_spec_witness :
    trigger 0 EPOLLIN 3 ([[104, 105]].map ReadRes.bytes ++ ReadRes.eagain :: []) [] poolLive
      = ({ poolLive with tmap := tmSet 0 3 poolLive.tmap },
         [[104, 105]].map (fun b => Ev.dataReceived 0 b (b.length : Int))) ∧
    trigger 0 EPOLLIN 3 ([[104, 105]].map ReadRes.bytes ++ ReadRes.bytes [] :: []) [] poolLive
      = ((terminate_on_close 0 { poolLive with tmap := tmSet 0 3 poolLive.tmap }).1,
         [[104, 105]].map (fun b => Ev.dataReceived 0 b (b.length : Int))
           ++ (terminate_on_close 0 { poolLive with tmap := tmSet 0 3 poolLive.tmap }).2) ∧
    trigger 0 EPOLLIN 3 ([[104, 105]].map ReadRes.bytes ++ ReadRes.err :: []) [] poolLive
      = ((terminate_on_error 0 { poolLive with tmap := tmSet 0 3 poolLive.tmap }).1,
         [[104, 105]].map (fun b => Ev.dataReceived 0 b (b.length : Int))
           ++ (terminate_on_error 0 { poolLive with tmap := tmSet 0 3 poolLive.tmap }).2) :=
  read_dispatch_spec 0 EPOLLIN 3 poolLive [[104, 105]] [] []
    (by decide) (by decide) (by decide) (by decide) (by decide) (by decide)

end FastServer
